import Mathlib

/-!
Verification development for the viaggiatreno-api repository.

The definitions below are a shallow embedding of `src/viaggiatreno_api/main.py`
(the distilled implementation; the near-duplicate script revisions under
`scripts/` are noted where they differ).  Python machine integers are modelled
as `Int`/`Nat`, monotonic time as `Int` ticks, JSON-like Python values as the
inductive `PyVal`, and fallible operations as `Option`/sum-like result types.
Unicode-dependent Python string primitives are modelled as follows:
`str.lower` at ASCII fidelity (it is only applied to content-type headers
and compared against the all-ASCII token `application/json`, on which no
non-ASCII character can have any effect); `str.upper` exactly on ASCII and
on every character whose Python uppercase mapping begins with `S` (the set
that decides `upper().startswith("S")`); `str.isdigit` at ASCII fidelity,
with its acceptance of non-ASCII Unicode digits a declared omission — the
station-shape dichotomy theorem is therefore stated for ASCII inputs, and
the non-ASCII divergence of the shape check is exhibited separately by a
counterexample computed entirely inside the exactly-modelled fragment.
-/

/-! ## Python value model (JSON-like data) -/

/-- A Python value as produced by `json` parsing: `None`, `bool`, `int`,
`str`, `list`, `dict` (string keys, insertion order). Floats do not occur in
the schedule records the embedded code consumes. -/
inductive PyVal
  | none
  | bool (b : Bool)
  | int (n : Int)
  | str (s : String)
  | list (items : List PyVal)
  | dict (entries : List (String × PyVal))

/-- Python truthiness: `None`, `False`, `0`, `""`, `[]`, `\x7b\x7d` are falsy. -/
def truthy : PyVal → Bool
  | .none => false
  | .bool b => b
  | .int n => n != 0
  | .str s => !s.isEmpty
  | .list items => !items.isEmpty
  | .dict entries => !entries.isEmpty

/-- Python `d.get(key)` with default `None` (keys are unique; first match). -/
def pyDictGet (entries : List (String × PyVal)) (key : String) : PyVal :=
  match entries.find? (fun kv => kv.1 == key) with
  | some kv => kv.2
  | Option.none => .none

/-- Accumulate a decimal digit list into a `Nat`. -/
def digitsToNat (l : List Char) : Nat :=
  l.foldl (fun acc c => acc * 10 + (c.toNat - 48)) 0

/-- Python `int(s)` on a string: strip surrounding whitespace, optional sign,
then decimal digits; anything else raises `ValueError` (`none` here).
Pythonic underscore digit grouping is not exercised by the program and is
omitted. -/
def parsePyInt (s : String) : Option Int :=
  let l := ((s.data.dropWhile Char.isWhitespace).reverse.dropWhile Char.isWhitespace).reverse
  match l with
  | [] => Option.none
  | c :: rest =>
    if c = '-' then
      if !rest.isEmpty && rest.all Char.isDigit then some (-(digitsToNat rest : Int))
      else Option.none
    else if c = '+' then
      if !rest.isEmpty && rest.all Char.isDigit then some ((digitsToNat rest : Int))
      else Option.none
    else if (c :: rest).all Char.isDigit then some ((digitsToNat (c :: rest) : Int))
    else Option.none

/-- Python `int(x)`: identity on ints, `True`/`False` become `1`/`0`, strings
are parsed, and every other type raises `TypeError` (`none` here). -/
def pyToInt : PyVal → Option Int
  | .bool b => some (if b then 1 else 0)
  | .int n => some n
  | .str s => parsePyInt s
  | _ => Option.none

/-- A single-quote character, kept out of string literals. -/
def pyReprQuote : String := String.singleton (Char.ofNat 39)

mutual

/-- Python `repr(x)` (string escaping inside `repr` of a `str` is simplified
to plain quoting; no claim depends on it). -/
def pyRepr : PyVal → String
  | .none => "None"
  | .bool b => if b then "True" else "False"
  | .int n => toString n
  | .str s => pyReprQuote ++ s ++ pyReprQuote
  | .list items => "[" ++ pyReprList items ++ "]"
  | .dict entries => "\x7b" ++ pyReprDict entries ++ "\x7d"

/-- Comma-separated `repr` of list elements. -/
def pyReprList : List PyVal → String
  | [] => ""
  | [v] => pyRepr v
  | v :: vs => pyRepr v ++ ", " ++ pyReprList vs

/-- Comma-separated `repr` of dict entries. -/
def pyReprDict : List (String × PyVal) → String
  | [] => ""
  | [(k, v)] => pyReprQuote ++ k ++ pyReprQuote ++ ": " ++ pyRepr v
  | (k, v) :: kvs =>
      pyReprQuote ++ k ++ pyReprQuote ++ ": " ++ pyRepr v ++ ", " ++ pyReprDict kvs

end

/-- Python `str(x)`: identity on strings, `repr`-like rendering otherwise. -/
def pyStr : PyVal → String
  | .str s => s
  | v => pyRepr v

/-! ## Response classification (`API.call`, main.py lines 116-120) -/

/-- The value `API.call` returns: `r.json()` (tagged with the raw body it was
parsed from) or `r.text`. The tag is decided by the content-type header only. -/
inductive ApiValue
  | json (body : String)
  | text (body : String)
deriving DecidableEq

/-- ASCII model of Python `str.lower()`. -/
def pyLower (s : String) : String := String.mk (s.data.map Char.toLower)

/-- Python `str.upper()` on a single character: the full Unicode uppercase
mapping, which can be several characters long. Exact on ASCII and on every
character whose uppercase mapping begins with `S` — besides `s` these are
`ſ` (U+017F, mapped to `S`), `ß` (U+00DF, mapped to `SS`), and the ligatures
`ﬅ` (U+FB05) and `ﬆ` (U+FB06), both mapped to `ST`; per the Unicode case
mapping data no other character maps to a string beginning with `S`. Every
other non-ASCII character is left unchanged; none of them is exercised by
any theorem in this file (the shape dichotomy is stated for ASCII inputs
and the counterexample uses only the exact entries). -/
def pyUpperChar (c : Char) : List Char :=
  if c = 'ſ' then ['S']
  else if c = 'ß' then ['S', 'S']
  else if c = 'ﬅ' ∨ c = 'ﬆ' then ['S', 'T']
  else [Char.toUpper c]

/-- Python `str.upper()`: per-character full uppercase mapping, concatenated. -/
def pyUpper (s : String) : String := String.mk (s.data.flatMap pyUpperChar)

/-- Substring containment on character lists: Python `needle in hay`. -/
def listContainsSub (needle : List Char) : List Char → Bool
  | [] => needle.isEmpty
  | c :: cs => needle.isPrefixOf (c :: cs) || listContainsSub needle cs

/-- Python `needle in hay` on strings. -/
def strContains (hay needle : String) : Bool := listContainsSub needle.data hay.data

/-- main.py lines 117-120: lowercase the `Content-Type` header value (empty
string when the header is absent), parse JSON when it contains
`application/json`, otherwise return the raw text body. -/
def classifyResponse (contentType : String) (body : String) : ApiValue :=
  if strContains (pyLower contentType) "application/json" then .json body else .text body

/-! ## Shared backoff state (`API`, main.py lines 72-104) -/

/-- main.py line 75. -/
def MAX_RETRIES : Nat := 6

/-- main.py line 76 (`4.0`; the program only ever uses it at integral values). -/
def INITIAL_BACKOFF : Int := 4

/-- main.py line 77. -/
def BACKOFF_FACTOR : Int := 2

/-- main.py line 94: `delay = INITIAL_BACKOFF * BACKOFF_FACTOR ** attempt`. -/
def retryDelay (attempt : Nat) : Int := INITIAL_BACKOFF * BACKOFF_FACTOR ^ attempt

/-- The critical section of main.py lines 96-99: under `_lock`, read
`now = time.monotonic()` and set `_backoff_until = now + delay` only when
`_backoff_until <= now` (the previous window has elapsed); otherwise leave
`_backoff_until` unchanged. -/
def backoffUpdate (backoff_until now delay : Int) : Int :=
  if backoff_until ≤ now then now + delay else backoff_until

/-- The shared `_backoff_until` after a serialized sequence of rate-limit
observations, each a pair (monotonic time read in the critical section,
computed delay). The lock serializes the critical sections, so any concurrent
execution is one such sequence. -/
def runBackoff (backoff_until : Int) (events : List (Int × Int)) : Int :=
  events.foldl (fun b e => backoffUpdate b e.1 e.2) backoff_until

/-! ## The retry loop of `API.call` (main.py lines 79-123) -/

/-- What one `requests.get` produces: an HTTP response (status, content-type
header value, body) or a `RequestException` carrying no response (connection
failure / timeout). -/
inductive AttemptOutcome
  | response (status : Nat) (contentType : String) (body : String)
  | connError
deriving DecidableEq

/-- How one logical `API.call` terminates. -/
inductive CallOutcome
  | success (value : ApiValue)
  /-- `raise` of an `HTTPError` for this status (from `raise_for_status`). -/
  | fatalStatus (status : Nat)
  /-- `raise` of the connection failure / timeout on the last attempt. -/
  | fatalConn
  /-- Python `UnboundLocalError`: `r` read before any response was bound. -/
  | unboundLocal
  /-- main.py line 123, `UnreachableCodeReachedError`. -/
  | unreachable
deriving DecidableEq

/-- Observable trace of one `API.call`: final outcome, the `time.sleep(delay)`
backoff sleeps in order, the number of `requests.get` calls issued, and the
shared `_backoff_until` when the call ends. -/
structure CallTrace where
  outcome : CallOutcome
  sleeps : List Int
  attempts : Nat
  finalBackoff : Int
deriving DecidableEq

/-- One iteration per remaining loop step of `for attempt in
range(MAX_RETRIES + 1)`. State: current attempt index, monotonic time `now`,
shared `backoff_until`, the binding of Python local `r` from the latest
response (`lastR`), accumulated sleeps (reversed) and request count.
The request itself is modelled as instantaneous; `responses attempt` is what
the `attempt`-th `requests.get` produces. -/
def callAux (responses : Nat → AttemptOutcome) :
    (remaining : Nat) → (attempt : Nat) → (now backoff_until : Int) →
    (lastR : Option (Nat × String × String)) → (sleeps : List Int) →
    (nreq : Nat) → CallTrace
  | 0, _, _, backoff_until, _, sleeps, nreq =>
      -- the `for` loop fell through: main.py line 123
      ⟨.unreachable, sleeps.reverse, nreq, backoff_until⟩
  | remaining + 1, attempt, now, backoff_until, lastR, sleeps, nreq =>
      -- lines 86-89: wait out the shared window before requesting
      let now := if backoff_until - now > 0 then backoff_until else now
      match responses attempt with
      | .connError =>
          -- lines 108-114: `e.response` is None, so `hasattr(...)` is False;
          -- re-raise only on the last attempt, otherwise the exception is
          -- swallowed and control reaches line 117 with the stale `r`
          if attempt == MAX_RETRIES then
            ⟨.fatalConn, sleeps.reverse, nreq + 1, backoff_until⟩
          else
            match lastR with
            | Option.none => ⟨.unboundLocal, sleeps.reverse, nreq + 1, backoff_until⟩
            | some (_, ct, body) =>
                ⟨.success (classifyResponse ct body), sleeps.reverse, nreq + 1, backoff_until⟩
      | .response status ct body =>
          if status == 403 && attempt < MAX_RETRIES then
            -- lines 93-105: compute delay, widen the shared window only if it
            -- has elapsed, sleep the delay locally, continue
            let delay := retryDelay attempt
            let backoff_until := backoffUpdate backoff_until now delay
            callAux responses remaining (attempt + 1) (now + delay) backoff_until
              (some (status, ct, body)) (delay :: sleeps) (nreq + 1)
          else if 400 ≤ status && status ≤ 599 then
            -- line 107: `raise_for_status` raises `HTTPError`; the handler at
            -- lines 110-114 re-raises when `attempt == MAX_RETRIES` or the
            -- status is not 403 (the remaining case cannot be reached)
            if attempt == MAX_RETRIES || status != 403 then
              ⟨.fatalStatus status, sleeps.reverse, nreq + 1, backoff_until⟩
            else
              ⟨.success (classifyResponse ct body), sleeps.reverse, nreq + 1, backoff_until⟩
          else
            -- lines 116-120: classify by content type and return
            ⟨.success (classifyResponse ct body), sleeps.reverse, nreq + 1, backoff_until⟩

/-- One logical `API.call` starting at monotonic time `now` with shared
backoff state `backoff_until`. -/
def API_call (responses : Nat → AttemptOutcome) (now backoff_until : Int) : CallTrace :=
  callAux responses (MAX_RETRIES + 1) 0 now backoff_until Option.none [] 0

/-! ## Station-code resolution (`resolve_station_code`, main.py lines 126-180) -/

/-- main.py line 26. -/
def STATION_CODE_LENGTH : Nat := 6

/-- Python `s.startswith(pre)`. -/
def strStartsWith (s pre : String) : Bool := pre.data.isPrefixOf s.data

/-- Python `s.isdigit()`: nonempty and all digits. Exact on ASCII (no ASCII
character outside `0`-`9` is a Python digit); Python additionally accepts
non-ASCII Unicode digits such as `²` or `٣`, a declared omission — the
theorems below either restrict their inputs to ASCII or use only ASCII
digits, so the omission decides nothing. -/
def pyIsdigit (l : List Char) : Bool := !l.isEmpty && l.all Char.isDigit

/-- main.py lines 133-137: `station_input.upper().startswith("S") and
len(station_input) == STATION_CODE_LENGTH and station_input[1:].isdigit()`. -/
def isStationCodeInput (s : String) : Bool :=
  strStartsWith (pyUpper s) "S" && s.data.length == STATION_CODE_LENGTH
    && pyIsdigit (s.data.drop 1)

/-- The first observable action of `resolve_station_code`: return a code with
no network traffic, or issue `API.call("autocompletaStazione", term)`. -/
inductive ResolveAction
  | returnCode (code : String)
  | search (term : String)
deriving DecidableEq

/-- main.py lines 132-142: return the uppercased input immediately when it has
station-code shape, otherwise search for it by name. -/
def resolve_station_code_action (station_input : String) : ResolveAction :=
  if isStationCodeInput station_input then .returnCode (pyUpper station_input)
  else .search station_input

/-- The station-code shape in the words of the specification: correct length
(6 characters), the prefix letter `S` matched case-insensitively (an ASCII
`S` or `s`), and the remaining characters numeric. -/
def specStationCodeShape (s : String) : Prop :=
  s.data.length = 6 ∧ (∃ c rest, s.data = c :: rest ∧ (c = 'S' ∨ c = 's'))
    ∧ (s.data.drop 1).all Char.isDigit = true

/-- Result of the disambiguation step after the user typed a choice. -/
inductive SelectionResult
  | cancelled
  | chosen (name code : String)
  | indexError
deriving DecidableEq

/-- Python list indexing `l[i]` for an `int` index: nonnegative indices from
the front, negative indices from the back, `IndexError` (`none`) otherwise. -/
def pyIndex {α : Type} (l : List α) (i : Int) : Option α :=
  if 0 ≤ i then l.get? i.toNat
  else if 0 ≤ i + (l.length : Int) then l.get? (i + (l.length : Int)).toNat
  else Option.none

/-- main.py lines 174-180: reject `choice == 0 or choice > len(stations)`,
otherwise take `stations[choice - 1]` with Python indexing semantics. -/
def select_station (stations : List (String × String)) (choice : Int) : SelectionResult :=
  if choice = 0 ∨ (stations.length : Int) < choice then .cancelled
  else
    match pyIndex stations (choice - 1) with
    | some nc => .chosen nc.1 nc.2
    | Option.none => .indexError

/-! ## Letter/region bulk fan-out (main.py lines 326-333 and 367-374) -/

/-- Outcome of one pooled unit task: the value `API.call` returned, or the
`requests.RequestException` it raised. -/
inductive TaskResult (α : Type)
  | ok (value : α)
  | exn
deriving DecidableEq

/-- `list(executor.map(f, keys))`: results in key order; the first task that
raised has its exception re-raised while the list is consumed, so the whole
collection is lost (`none`). -/
def executorMapCollect {κ α : Type} (f : κ → TaskResult α) : List κ → Option (List α)
  | [] => some []
  | k :: ks =>
    match f k with
    | .exn => Option.none
    | .ok a => (executorMapCollect f ks).map (fun rest => a :: rest)

/-- `string.ascii_uppercase`. -/
def ascii_uppercase : List Char := "ABCDEFGHIJKLMNOPQRSTUVWXYZ".data

/-- The keys of `REGIONS` in iteration (insertion) order: 0..22. -/
def region_codes : List Nat := List.range 23

/-- main.py lines 367-374 (`cerca_stazione` with `--all`): map `API.call
("cercaStazione", letter)` over the alphabet, then
`chain.from_iterable(filter(None, results))`. Each unit result is the decoded
JSON list for that letter. -/
def cerca_stazione_all (fetch : Char → TaskResult (List String)) : Option (List String) :=
  (executorMapCollect fetch ascii_uppercase).map
    (fun results => (results.filter (fun r => !r.isEmpty)).flatten)

/-- main.py lines 326-333 (`elenco_stazioni` with `--all`): the same shape
over region codes 0..22. -/
def elenco_stazioni_all (fetch : Nat → TaskResult (List String)) : Option (List String) :=
  (executorMapCollect fetch region_codes).map
    (fun results => (results.filter (fun r => !r.isEmpty)).flatten)

/-! ## Two-stage pipeline (main.py lines 848-881, 897-908, 1074-1081) -/

/-- Python `isinstance(x, list)`. -/
def isPyList : PyVal → Bool
  | .list _ => true
  | _ => false

/-- Python `isinstance(x, dict)`. -/
def isPyDict : PyVal → Bool
  | .dict _ => true
  | _ => false

/-- A train reference: (train number, departure station code, departure
timestamp in epoch milliseconds). -/
abbrev TrainRef := Int × String × Int

/-- A Python `set` of train references, modelled as an insertion-ordered
duplicate-free list (set iteration order is arbitrary but yields each member
exactly once; insertion order is one such order). `s.add(t)`. -/
def setAdd (s : List TrainRef) (t : TrainRef) : List TrainRef :=
  if t ∈ s then s else s ++ [t]

/-- Python `s.update(other)` for the set model. -/
def setUpdate (s other : List TrainRef) : List TrainRef :=
  other.foldl setAdd s

/-- The contribution of one schedule record (main.py lines 860-879): skip
non-dicts, read the three fields with `.get`, require all three truthy, then
convert with `int`/`str`/`int`, skipping the record when a conversion raises. -/
def recordTriple? (train : PyVal) : Option TrainRef :=
  match train with
  | .dict entries =>
    let train_number := pyDictGet entries "numeroTreno"
    let departure_station := pyDictGet entries "codOrigine"
    let departure_millis := pyDictGet entries "dataPartenzaTreno"
    if truthy train_number && truthy departure_station && truthy departure_millis then
      match pyToInt train_number, pyToInt departure_millis with
      | some n, some m => some (n, pyStr departure_station, m)
      | _, _ => Option.none
    else Option.none
  | _ => Option.none

/-- main.py lines 848-881, `extract_trains_from_schedule`: a Python `set` of
the triples of the well-formed records; any non-list input yields the empty
set. Total by construction, mirroring that the Python function catches its
conversion errors and raises nothing. -/
def extract_trains_from_schedule (schedule_data : PyVal) : List TrainRef :=
  match schedule_data with
  | .list items =>
      items.foldl
        (fun trains train =>
          match recordTriple? train with
          | some t => setAdd trains t
          | Option.none => trains)
        []
  | _ => []

/-- main.py lines 1074-1077: `all_trains.update(extract_trains_from_schedule
(schedule_data))` over every per-station dataset (the station keys are
irrelevant, only the dict values are consumed). -/
def collect_all_trains (datasets : List PyVal) : List TrainRef :=
  datasets.foldl (fun acc d => setUpdate acc (extract_trains_from_schedule d)) []

/-- The deduplicated work set the default `dynamic-dump` mode derives from the
departures datasets followed by the arrivals datasets. -/
def dynamic_dump_trains (partenze_data arrivi_data : List PyVal) : List TrainRef :=
  collect_all_trains (partenze_data ++ arrivi_data)

/-- main.py lines 899-908 (`fetch_andamento_treno_bulk`): one
`executor.submit(API.call, "andamentoTreno", ...)` per member of the train
set, in iteration order. -/
def fetch_andamento_treno_requests (trains : List TrainRef) : List TrainRef :=
  trains

/-! ## Helper lemmas -/

theorem le_backoffUpdate {b now delay : Int} (hd : 0 ≤ delay) :
    b ≤ backoffUpdate b now delay := by
  unfold backoffUpdate
  split <;> omega

theorem le_runBackoff {b : Int} {events : List (Int × Int)}
    (h : ∀ e ∈ events, 0 ≤ e.2) : b ≤ runBackoff b events := by
  induction events generalizing b with
  | nil => simp [runBackoff]
  | cons e es ih =>
      have h1 : b ≤ backoffUpdate b e.1 e.2 := le_backoffUpdate (h e (by simp))
      have h2 := ih (b := backoffUpdate b e.1 e.2) (fun x hx => h x (by simp [hx]))
      simpa [runBackoff] using le_trans h1 h2

theorem mem_setAdd {s : List TrainRef} {t u : TrainRef} :
    u ∈ setAdd s t ↔ u ∈ s ∨ u = t := by
  unfold setAdd
  split <;> rename_i hmem
  · constructor
    · exact Or.inl
    · rintro (h1 | rfl)
      · exact h1
      · exact hmem
  · simp [List.mem_append]

theorem nodup_setAdd {s : List TrainRef} {t : TrainRef} (h : s.Nodup) :
    (setAdd s t).Nodup := by
  unfold setAdd
  split <;> rename_i hmem
  · exact h
  · simp [List.nodup_append, h, hmem]

theorem mem_setUpdate {other s : List TrainRef} {u : TrainRef} :
    u ∈ setUpdate s other ↔ u ∈ s ∨ u ∈ other := by
  induction other generalizing s with
  | nil => simp [setUpdate]
  | cons t ts ih =>
      have step : setUpdate s (t :: ts) = setUpdate (setAdd s t) ts := rfl
      rw [step, ih, mem_setAdd]
      simp only [List.mem_cons]
      tauto

theorem nodup_setUpdate {other s : List TrainRef} (h : s.Nodup) :
    (setUpdate s other).Nodup := by
  induction other generalizing s with
  | nil => simpa [setUpdate] using h
  | cons t ts ih =>
      have step : setUpdate s (t :: ts) = setUpdate (setAdd s t) ts := rfl
      rw [step]
      exact ih (nodup_setAdd h)

theorem mem_extract_foldl (items : List PyVal) (init : List TrainRef) (u : TrainRef) :
    (u ∈ items.foldl
        (fun trains train =>
          match recordTriple? train with
          | some t => setAdd trains t
          | Option.none => trains)
        init) ↔
      u ∈ init ∨ ∃ rec ∈ items, recordTriple? rec = some u := by
  induction items generalizing init with
  | nil => simp
  | cons rec recs ih =>
      simp only [List.foldl_cons]
      rw [ih]
      cases hrec : recordTriple? rec with
      | none =>
          simp only [List.mem_cons]
          constructor
          · rintro (h1 | ⟨r, hr, hrt⟩)
            · exact Or.inl h1
            · exact Or.inr ⟨r, Or.inr hr, hrt⟩
          · rintro (h1 | ⟨r, (rfl | hr), hrt⟩)
            · exact Or.inl h1
            · rw [hrec] at hrt
              exact absurd hrt (by simp)
            · exact Or.inr ⟨r, hr, hrt⟩
      | some t =>
          rw [mem_setAdd]
          simp only [List.mem_cons]
          constructor
          · rintro ((h1 | rfl) | ⟨r, hr, hrt⟩)
            · exact Or.inl h1
            · exact Or.inr ⟨rec, Or.inl rfl, hrec⟩
            · exact Or.inr ⟨r, Or.inr hr, hrt⟩
          · rintro (h1 | ⟨r, (rfl | hr), hrt⟩)
            · exact Or.inl (Or.inl h1)
            · rw [hrec] at hrt
              exact Or.inl (Or.inr (by simpa using hrt.symm))
            · exact Or.inr ⟨r, hr, hrt⟩

theorem nodup_extract_foldl (items : List PyVal) (init : List TrainRef)
    (h : init.Nodup) :
    (items.foldl
        (fun trains train =>
          match recordTriple? train with
          | some t => setAdd trains t
          | Option.none => trains)
        init).Nodup := by
  induction items generalizing init with
  | nil => simpa using h
  | cons rec recs ih =>
      simp only [List.foldl_cons]
      cases hrec : recordTriple? rec with
      | none => simpa [hrec] using ih _ h
      | some t => simpa [hrec] using ih _ (nodup_setAdd h)

theorem mem_extract_list {items : List PyVal} {u : TrainRef} :
    u ∈ extract_trains_from_schedule (.list items) ↔
      ∃ rec ∈ items, recordTriple? rec = some u := by
  unfold extract_trains_from_schedule
  rw [mem_extract_foldl]
  simp

theorem nodup_extract (v : PyVal) : (extract_trains_from_schedule v).Nodup := by
  cases v <;> simp [extract_trains_from_schedule]
  exact nodup_extract_foldl _ [] (by simp)

theorem mem_collect (datasets : List PyVal) (u : TrainRef) :
    u ∈ collect_all_trains datasets ↔
      ∃ d ∈ datasets, u ∈ extract_trains_from_schedule d := by
  have aux : ∀ (ds : List PyVal) (init : List TrainRef),
      (u ∈ ds.foldl (fun acc d => setUpdate acc (extract_trains_from_schedule d)) init) ↔
        u ∈ init ∨ ∃ d ∈ ds, u ∈ extract_trains_from_schedule d := by
    intro ds
    induction ds with
    | nil => simp
    | cons d ds ih =>
        intro init
        simp only [List.foldl_cons]
        rw [ih, mem_setUpdate]
        simp only [List.mem_cons]
        constructor
        · rintro ((h1 | h1) | ⟨e, he, hm⟩)
          · exact Or.inl h1
          · exact Or.inr ⟨d, Or.inl rfl, h1⟩
          · exact Or.inr ⟨e, Or.inr he, hm⟩
        · rintro (h1 | ⟨e, (rfl | he), hm⟩)
          · exact Or.inl (Or.inl h1)
          · exact Or.inl (Or.inr hm)
          · exact Or.inr ⟨e, he, hm⟩
  simpa [collect_all_trains] using aux datasets []

theorem nodup_collect (datasets : List PyVal) : (collect_all_trains datasets).Nodup := by
  have aux : ∀ (ds : List PyVal) (init : List TrainRef), init.Nodup →
      (ds.foldl (fun acc d => setUpdate acc (extract_trains_from_schedule d)) init).Nodup := by
    intro ds
    induction ds with
    | nil => intro init h; simpa using h
    | cons d ds ih =>
        intro init h
        simp only [List.foldl_cons]
        exact ih _ (nodup_setUpdate h)
  exact aux datasets [] (by simp)

theorem count_eq_one_of_nodup_mem {t : TrainRef} {l : List TrainRef}
    (h : l.Nodup) (hm : t ∈ l) : l.count t = 1 := by
  induction l with
  | nil => simp at hm
  | cons a as ih =>
      rw [List.count_cons]
      rcases List.nodup_cons.mp h with ⟨hna, hnd⟩
      rcases List.mem_cons.mp hm with rfl | hmem
      · have hz : as.count t = 0 := List.count_eq_zero.mpr hna
        simp [hz]
      · have hne : a ≠ t := fun he => hna (he ▸ hmem)
        simp [ih hnd hmem, hne]

/-! ## Claim theorems -/

/-- C1: the code does not implement the claimed monotonic-widen rule. With the
shared resume-at at 100 and a rate-limit signal observed at monotonic time 50
with computed delay 200, the claim requires the window to widen to 250
(because 50 + 200 exceeds 100), but the critical section of `API.call` leaves
`_backoff_until` at 100: it only ever starts a new window once the previous
one has elapsed. -/
theorem backoff_update_ignores_midwindow_signal :
    backoffUpdate 100 50 200 = 100 ∧ (100 : Int) < 50 + 200 :=
  ⟨rfl, by decide⟩

/-- C2 (counterexample): a call that receives HTTP 403 on every attempt
issues 7 requests, not 6, and sleeps 4, 8, 16, 32, 64, 128 — the loop runs
`range(MAX_RETRIES + 1)` times, so the budget is one initial attempt plus six
retries, and the schedule has a sixth delay of 128. -/
theorem api_call_all_forbidden_uses_seven_attempts :
    (API_call (fun _ => .response 403 "text/html" "banned") 0 0).attempts = 7 ∧
    (API_call (fun _ => .response 403 "text/html" "banned") 0 0).sleeps =
      [4, 8, 16, 32, 64, 128] ∧
    (API_call (fun _ => .response 403 "text/html" "banned") 0 0).outcome =
      .fatalStatus 403 :=
  ⟨rfl, rfl, rfl⟩

/-- C2 (amended): the retry budget is 7 attempts total (one initial attempt
plus `MAX_RETRIES = 6` retries) with sleep schedule `4 * 2 ^ attempt` for
attempts 0..5, i.e. 4, 8, 16, 32, 64, 128. A call that receives HTTP 403 on
attempts 1-5 and a success on attempt 6 succeeds after exactly 5 retries,
having slept 4, 8, 16, 32, 64; a call that receives HTTP 403 on every attempt
exhausts the budget after 7 attempts (sleeping 4, 8, 16, 32, 64, 128) and
surfaces the HTTP 403 as a fatal error. -/
theorem api_call_retry_schedule (ct403 body403 ctOk bodyOk : String) :
    ((API_call (fun i => if i < 5 then .response 403 ct403 body403
        else .response 200 ctOk bodyOk) 0 0).attempts = 6 ∧
     (API_call (fun i => if i < 5 then .response 403 ct403 body403
        else .response 200 ctOk bodyOk) 0 0).sleeps = [4, 8, 16, 32, 64] ∧
     (API_call (fun i => if i < 5 then .response 403 ct403 body403
        else .response 200 ctOk bodyOk) 0 0).outcome =
          .success (classifyResponse ctOk bodyOk)) ∧
    ((API_call (fun _ => .response 403 ct403 body403) 0 0).attempts = 7 ∧
     (API_call (fun _ => .response 403 ct403 body403) 0 0).sleeps =
        [4, 8, 16, 32, 64, 128] ∧
     (API_call (fun _ => .response 403 ct403 body403) 0 0).outcome =
        .fatalStatus 403) :=
  ⟨⟨rfl, rfl, rfl⟩, ⟨rfl, rfl, rfl⟩⟩

/-- C3: the letter- and region-keyed fan-outs do not tolerate a fatal unit
failure. In the Scenario E batch (26 letter tasks, task `Q` raises, all other
25 return data) `list(executor.map(...))` re-raises `Q`-s exception, so the
whole batch is lost: no merged output, no sibling results, no 25/1 summary.
The all-success run shows the merge itself works (ascending key order). The
region-keyed fan-out has the same shape. -/
theorem cerca_stazione_all_aborts_on_single_failure :
    cerca_stazione_all (fun c => if c = 'Q' then .exn else .ok [String.singleton c]) =
      Option.none ∧
    cerca_stazione_all (fun c => .ok [String.singleton c]) =
      some (ascii_uppercase.map String.singleton) ∧
    elenco_stazioni_all (fun r => if r = 7 then .exn else .ok [toString r]) =
      Option.none :=
  ⟨rfl, rfl, rfl⟩

/-- C4: connection failures and timeouts are not surfaced immediately. After
a 403 on attempt 1 bound `r`, a connection error on attempt 2 is swallowed by
the `hasattr(e.response, "status_code")` guard (the exception has no
response), and the call returns the stale 403 response body as a success. On
the very first attempt the same swallowing crashes with `UnboundLocalError`
instead of the typed fatal error. Only the non-403 status branch behaves as
claimed (fatal on the first attempt). -/
theorem api_call_swallows_connection_error_after_403 :
    (API_call (fun i => if i = 0 then .response 403 "text/plain" "banned"
        else .connError) 0 0).outcome = .success (.text "banned") ∧
    (API_call (fun i => if i = 0 then .response 403 "text/plain" "banned"
        else .connError) 0 0).attempts = 2 ∧
    (API_call (fun _ => .connError) 0 0).outcome = .unboundLocal ∧
    (API_call (fun _ => .response 404 "text/html" "not found") 0 0).outcome =
      .fatalStatus 404 ∧
    (API_call (fun _ => .response 404 "text/html" "not found") 0 0).attempts = 1 :=
  ⟨rfl, rfl, rfl, rfl, rfl⟩

/-- C5: the shared resume-at never decreases — during an active window
(`now < b`) an observed rate-limit signal leaves it unchanged, any change
happens only once the previous window has elapsed (`b ≤ now`) and then moves
resume-at strictly later, and along any serialized sequence of observations
the value at an earlier point never exceeds the value at a later point. -/
theorem backoff_window_monotonic (b now delay : Int) (hdelay : 0 < delay)
    (events p q : List (Int × Int)) (hsplit : events = p ++ q)
    (hpos : ∀ e ∈ events, 0 ≤ e.2) :
    (now < b → backoffUpdate b now delay = b) ∧
    b ≤ backoffUpdate b now delay ∧
    (backoffUpdate b now delay ≠ b → b ≤ now ∧ b < backoffUpdate b now delay) ∧
    runBackoff b p ≤ runBackoff b events := by
  refine ⟨?_, le_backoffUpdate (le_of_lt hdelay), ?_, ?_⟩
  · intro hlt
    unfold backoffUpdate
    rw [if_neg (by omega)]
  · intro hne
    unfold backoffUpdate at hne ⊢
    by_cases hb : b ≤ now
    · rw [if_pos hb]
      exact ⟨hb, by omega⟩
    · rw [if_neg hb] at hne
      exact absurd rfl hne
  · subst hsplit
    have happ : runBackoff b (p ++ q) = runBackoff (runBackoff b p) q := by
      simp [runBackoff, List.foldl_append]
    rw [happ]
    exact le_runBackoff (fun e he => hpos e (by simp [he]))

/-- C5 witness: the theorem applied at resume-at 10, a signal at time 3 with
delay 4, and the event sequence [(12, 5), (20, 4)] split after its first
event. -/
theorem backoff_window_monotonic_witness :
    (0 : Int) < 4 ∧
    (([((12 : Int), (5 : Int)), (20, 4)] : List (Int × Int)) = [(12, 5)] ++ [(20, 4)]) ∧
    (∀ e ∈ ([((12 : Int), (5 : Int)), (20, 4)] : List (Int × Int)), 0 ≤ e.2) ∧
    (((3 : Int) < 10 → backoffUpdate 10 3 4 = 10) ∧
     (10 : Int) ≤ backoffUpdate 10 3 4 ∧
     (backoffUpdate 10 3 4 ≠ 10 → (10 : Int) ≤ 3 ∧ (10 : Int) < backoffUpdate 10 3 4) ∧
     runBackoff 10 [((12 : Int), (5 : Int))] ≤
       runBackoff 10 [((12 : Int), (5 : Int)), (20, 4)]) :=
  ⟨by decide, rfl, by decide,
    backoff_window_monotonic 10 3 4 (by decide) [(12, 5), (20, 4)] [(12, 5)] [(20, 4)]
      rfl (by decide)⟩

/-- C6: the two-stage pipeline issues exactly one `andamentoTreno` request per
distinct (train number, origin code, departure millis) triple extractable
from the departures and arrivals datasets — a triple occurring in several
datasets (for example in both a departures list and an arrivals list) is
requested once, a triple occurring in none is not requested, and triples that
differ in any component are counted separately. -/
theorem stage_two_requests_dedup (partenze_data arrivi_data : List PyVal) (t : TrainRef) :
    (fetch_andamento_treno_requests (dynamic_dump_trains partenze_data arrivi_data)).count t =
      if ∃ d ∈ partenze_data ++ arrivi_data, t ∈ extract_trains_from_schedule d then 1
      else 0 := by
  have hmem := mem_collect (partenze_data ++ arrivi_data) t
  have hnodup := nodup_collect (partenze_data ++ arrivi_data)
  rw [fetch_andamento_treno_requests, dynamic_dump_trains]
  split_ifs with h
  · exact count_eq_one_of_nodup_mem hnodup (hmem.mpr h)
  · exact List.count_eq_zero.mpr (fun hc => h (hmem.mp hc))

/-- C8: the disambiguation step accepts out-of-range negative choices. With
the three Milano candidates, choice `-1` passes the `choice == 0 or choice >
len(stations)` guard and Python negative indexing returns the second
candidate; choice `-4` reaches `stations[-5]` and crashes with `IndexError`
instead of the fatal selection error. Choices 0 and `n + 1` are rejected and
an in-range choice returns the choice-th candidate, as claimed. -/
theorem select_station_accepts_out_of_range_negative_choice :
    select_station [("Milano Centrale", "S01700"), ("Milano Porta Garibaldi", "S01645"),
      ("Milano Lambrate", "S01529")] (-1) = .chosen "Milano Porta Garibaldi" "S01645" ∧
    select_station [("Milano Centrale", "S01700"), ("Milano Porta Garibaldi", "S01645"),
      ("Milano Lambrate", "S01529")] (-4) = .indexError ∧
    select_station [("Milano Centrale", "S01700"), ("Milano Porta Garibaldi", "S01645"),
      ("Milano Lambrate", "S01529")] 0 = .cancelled ∧
    select_station [("Milano Centrale", "S01700"), ("Milano Porta Garibaldi", "S01645"),
      ("Milano Lambrate", "S01529")] 4 = .cancelled ∧
    select_station [("Milano Centrale", "S01700"), ("Milano Porta Garibaldi", "S01645"),
      ("Milano Lambrate", "S01529")] 2 = .chosen "Milano Porta Garibaldi" "S01645" :=
  ⟨rfl, rfl, rfl, rfl, rfl⟩

theorem isPrefixOf_iff_exists_append (needle : List Char) : ∀ hay : List Char,
    needle.isPrefixOf hay = true ↔ ∃ r, hay = needle ++ r := by
  induction needle with
  | nil => intro hay; simp [List.isPrefixOf]
  | cons a as ih =>
      intro hay
      cases hay with
      | nil => simp [List.isPrefixOf]
      | cons b bs =>
          simp only [List.isPrefixOf, Bool.and_eq_true, beq_iff_eq, ih bs]
          constructor
          · rintro ⟨rfl, r, rfl⟩
            exact ⟨r, rfl⟩
          · rintro ⟨r, h⟩
            injection h with h1 h2
            exact ⟨h1.symm, r, h2⟩

theorem listContainsSub_iff (needle : List Char) : ∀ hay : List Char,
    listContainsSub needle hay = true ↔ ∃ l r, hay = l ++ (needle ++ r) := by
  intro hay
  induction hay with
  | nil =>
      simp only [listContainsSub, List.isEmpty_iff]
      constructor
      · intro h
        exact ⟨[], [], by simp [h]⟩
      · rintro ⟨l, r, h⟩
        rcases List.append_eq_nil.mp h.symm with ⟨hl, hr⟩
        rcases List.append_eq_nil.mp hr with ⟨hn, -⟩
        exact hn
  | cons c cs ih =>
      simp only [listContainsSub, Bool.or_eq_true, ih, isPrefixOf_iff_exists_append]
      constructor
      · rintro (⟨r, hr⟩ | ⟨l, r, hlr⟩)
        · exact ⟨[], r, by simp [hr]⟩
        · exact ⟨c :: l, r, by simp [hlr]⟩
      · rintro ⟨l, r, hlr⟩
        cases l with
        | nil => exact Or.inl ⟨r, by simpa using hlr⟩
        | cons x xs =>
            injection hlr with h1 h2
            exact Or.inr ⟨xs, r, h2⟩

theorem exists_lower_infix (token s : List Char) :
    (∃ l r, s.map Char.toLower = l ++ (token ++ r)) ↔
      ∃ l mid r, s = l ++ (mid ++ r) ∧ mid.map Char.toLower = token := by
  constructor
  · rintro ⟨l, r, h⟩
    rcases List.map_eq_append_iff.mp h with ⟨l1, l2, rfl, hl1, hl2⟩
    rcases List.map_eq_append_iff.mp hl2 with ⟨m1, m2, rfl, hm1, hm2⟩
    exact ⟨l1, m1, m2, rfl, hm1⟩
  · rintro ⟨l, mid, r, rfl, hmid⟩
    exact ⟨l.map Char.toLower, r.map Char.toLower, by simp [hmid]⟩

theorem char_toUpper_eq_S_iff (c : Char) : Char.toUpper c = 'S' ↔ (c = 'S' ∨ c = 's') := by
  constructor
  · intro h
    have hup : Char.toUpper c =
        if c.toNat ≥ 97 ∧ c.toNat ≤ 122 then Char.ofNat (c.toNat - 32) else c := rfl
    by_cases hc : c.toNat ≥ 97 ∧ c.toNat ≤ 122
    · right
      rw [hup, if_pos hc] at h
      have hvalid : Nat.isValidChar (c.toNat - 32) := Or.inl (by omega)
      have htn : (Char.ofNat (c.toNat - 32)).toNat = c.toNat - 32 := by
        rw [Char.ofNat, dif_pos hvalid]
        rfl
      rw [h] at htn
      have hS : ('S').toNat = 83 := by decide
      have h115 : c.toNat = 115 := by omega
      have hc' := Char.ofNat_toNat c
      rw [h115] at hc'
      exact hc'.symm.trans (by decide)
    · left
      rw [hup, if_neg hc] at h
      exact h
  · rintro (rfl | rfl) <;> decide

theorem pyUpperChar_ascii {c : Char} (h : c.toNat < 128) :
    pyUpperChar c = [Char.toUpper c] := by
  have h1 : c ≠ 'ſ' := fun he => by rw [he] at h; exact absurd h (by decide)
  have h2 : c ≠ 'ß' := fun he => by rw [he] at h; exact absurd h (by decide)
  have h3 : ¬ (c = 'ﬅ' ∨ c = 'ﬆ') := by
    rintro (he | he) <;> (rw [he] at h; exact absurd h (by decide))
  unfold pyUpperChar
  rw [if_neg h1, if_neg h2, if_neg h3]

theorem flatMap_pyUpperChar_ascii : ∀ l : List Char, (∀ c ∈ l, c.toNat < 128) →
    l.flatMap pyUpperChar = l.map Char.toUpper
  | [], _ => rfl
  | c :: cs, h => by
      rw [List.flatMap_cons, List.map_cons, pyUpperChar_ascii (h c (by simp)),
        flatMap_pyUpperChar_ascii cs (fun x hx => h x (by simp [hx]))]
      rfl

theorem isStationCodeInput_iff (s : String) (hascii : ∀ c ∈ s.data, c.toNat < 128) :
    isStationCodeInput s = true ↔ specStationCodeShape s := by
  have hmk : (pyUpper s).data = s.data.map Char.toUpper :=
    flatMap_pyUpperChar_ascii s.data hascii
  have hSd : ("S" : String).data = ['S'] := rfl
  unfold isStationCodeInput specStationCodeShape strStartsWith pyIsdigit STATION_CODE_LENGTH
  rw [hmk, hSd]
  cases hs : s.data with
  | nil => simp [List.isPrefixOf]
  | cons c rest =>
      simp only [List.map_cons, List.isPrefixOf, Bool.and_eq_true, beq_iff_eq,
        List.length_cons, List.drop_succ_cons, List.drop_zero, Bool.not_eq_true,
        List.cons.injEq]
      constructor
      · rintro ⟨⟨⟨hS, -⟩, hlen⟩, hne, hdig⟩
        refine ⟨by omega, ⟨c, rest, ⟨rfl, rfl⟩, ?_⟩, hdig⟩
        exact char_toUpper_eq_S_iff c |>.mp hS.symm
      · rintro ⟨hlen, ⟨c2, r2, ⟨rfl, rfl⟩, hc2⟩, hdig⟩
        have hne : rest ≠ [] := by
          intro hnil
          rw [hnil] at hlen
          simp at hlen
        refine ⟨⟨⟨(char_toUpper_eq_S_iff c |>.mpr hc2).symm, trivial⟩, by omega⟩, ?_, hdig⟩
        simpa [List.isEmpty_iff] using hne

/-- C9: a response is parsed as JSON if and only if its content-type header
has a substring whose lowercasing is `application/json` (a case-insensitive
occurrence of the JSON media type token); otherwise the raw body is returned
as text, unchanged. The decision never looks at the body. -/
theorem response_classification (ct body : String) :
    (classifyResponse ct body = .json body ↔
      ∃ l mid r, ct.data = l ++ (mid ++ r) ∧
        mid.map Char.toLower = "application/json".data) ∧
    (classifyResponse ct body = .text body ↔
      ¬ ∃ l mid r, ct.data = l ++ (mid ++ r) ∧
        mid.map Char.toLower = "application/json".data) := by
  have hdata : (pyLower ct).data = ct.data.map Char.toLower := rfl
  have hcontains : strContains (pyLower ct) "application/json" = true ↔
      ∃ l mid r, ct.data = l ++ (mid ++ r) ∧
        mid.map Char.toLower = "application/json".data := by
    unfold strContains
    rw [hdata, listContainsSub_iff]
    exact exists_lower_infix _ _
  unfold classifyResponse
  by_cases h : strContains (pyLower ct) "application/json" = true
  · rw [if_pos h]
    refine ⟨⟨fun _ => hcontains.mp h, fun _ => rfl⟩, ?_, ?_⟩
    · intro heq
      exact absurd heq (by simp)
    · intro hn
      exact absurd (hcontains.mp h) hn
  · rw [if_neg h]
    refine ⟨⟨?_, ?_⟩, ⟨fun _ hx => h (hcontains.mpr hx), fun _ => rfl⟩⟩
    · intro heq
      exact absurd heq (by simp)
    · intro hx
      exact absurd (hcontains.mpr hx) h

/-- C10: `extract_trains_from_schedule` is total (it is a Lean function and
the embedded branches cover every `PyVal`): any non-list input yields the
empty set, a triple is in the output exactly when some record of the list
yields it, non-dict records yield nothing, and a record whose `numeroTreno`,
`codOrigine` or `dataPartenzaTreno` is falsy (for example the integer 0) or
whose `numeroTreno`/`dataPartenzaTreno` fails `int` conversion yields
nothing. -/
theorem extract_trains_total_and_filtering :
    (∀ v : PyVal, isPyList v = false → extract_trains_from_schedule v = []) ∧
    (∀ (items : List PyVal) (t : TrainRef),
        t ∈ extract_trains_from_schedule (.list items) ↔
          ∃ rec ∈ items, recordTriple? rec = some t) ∧
    (∀ v : PyVal, isPyDict v = false → recordTriple? v = Option.none) ∧
    (∀ entries : List (String × PyVal),
        truthy (pyDictGet entries "numeroTreno") = false ∨
        truthy (pyDictGet entries "codOrigine") = false ∨
        truthy (pyDictGet entries "dataPartenzaTreno") = false ∨
        pyToInt (pyDictGet entries "numeroTreno") = Option.none ∨
        pyToInt (pyDictGet entries "dataPartenzaTreno") = Option.none →
        recordTriple? (.dict entries) = Option.none) ∧
    recordTriple? (.dict [("numeroTreno", .int 0), ("codOrigine", .str "S01700"),
        ("dataPartenzaTreno", .int 1717329600000)]) = Option.none := by
  refine ⟨?_, ?_, ?_, ?_, by decide⟩
  · intro v h
    cases v <;> first | rfl | exact absurd h (by simp [isPyList])
  · intro items t
    exact mem_extract_list
  · intro v h
    cases v <;> first | rfl | exact absurd h (by simp [isPyDict])
  · intro entries h
    rcases h with h | h | h | h | h
    · simp [recordTriple?, h]
    · simp [recordTriple?, h]
    · simp [recordTriple?, h]
    · rcases hms : pyToInt (pyDictGet entries "dataPartenzaTreno") with _ | m <;>
        simp [recordTriple?, h, hms]
    · rcases htn : pyToInt (pyDictGet entries "numeroTreno") with _ | n <;>
        simp [recordTriple?, h, htn]

/-- C10 witness: the theorem applied at a string input, a non-dict record, a
record with an unparsable `numeroTreno`, and a well-formed record. -/
theorem extract_trains_total_and_filtering_witness :
    isPyList (PyVal.str "oops") = false ∧
    extract_trains_from_schedule (PyVal.str "oops") = [] ∧
    isPyDict (PyVal.int 3) = false ∧
    recordTriple? (PyVal.int 3) = Option.none ∧
    pyToInt (pyDictGet [("numeroTreno", PyVal.str "abc"), ("codOrigine", PyVal.str "S01700"),
        ("dataPartenzaTreno", PyVal.int 5)] "numeroTreno") = Option.none ∧
    recordTriple? (PyVal.dict [("numeroTreno", PyVal.str "abc"),
        ("codOrigine", PyVal.str "S01700"),
        ("dataPartenzaTreno", PyVal.int 5)]) = Option.none ∧
    (((635 : Int), "S01700", (1717329600000 : Int)) ∈ extract_trains_from_schedule
        (PyVal.list [PyVal.dict [("numeroTreno", PyVal.int 635),
          ("codOrigine", PyVal.str "S01700"),
          ("dataPartenzaTreno", PyVal.int 1717329600000)]])) := by
  refine ⟨by decide, extract_trains_total_and_filtering.1 _ (by decide), by decide,
    extract_trains_total_and_filtering.2.2.1 _ (by decide), by decide,
    extract_trains_total_and_filtering.2.2.2.1 _
      (Or.inr (Or.inr (Or.inr (Or.inl (by decide))))), ?_⟩
  exact (extract_trains_total_and_filtering.2.1 _ _).mpr
    ⟨PyVal.dict [("numeroTreno", PyVal.int 635), ("codOrigine", PyVal.str "S01700"),
        ("dataPartenzaTreno", PyVal.int 1717329600000)], by simp, by decide⟩

/-- C7 (counterexample): the claimed dichotomy fails beyond ASCII. The input
`ſ01700` is not of the claimed shape — its first letter is `ſ` (U+017F), not
an `S` or `s` — yet Python's `upper()` maps `ſ` to `S`, so the code's check
accepts it and `resolve_station_code` returns the code `S01700` with no
search request, where the claim requires a search. -/
theorem resolve_station_code_long_s_no_search :
    resolve_station_code_action "ſ01700" = .returnCode "S01700" ∧
    ¬ specStationCodeShape "ſ01700" := by
  constructor
  · decide
  · rintro ⟨-, ⟨c, rest, hc, hcs⟩, -⟩
    rw [show ("ſ01700" : String).data = 'ſ' :: ['0', '1', '7', '0', '0'] from rfl] at hc
    injection hc with h1 h2
    rw [← h1] at hcs
    rcases hcs with h | h <;> exact absurd h (by decide)

/-- C7 (amended): restricted to ASCII inputs the dichotomy holds as claimed —
an input with the station-code shape (length 6, first letter `S` or `s`,
remaining characters digits) is resolved to its uppercased self with no
network request, and every other ASCII input is sent to the
`autocompletaStazione` search endpoint as a search term. Beyond ASCII the
code's check is broader than the claimed shape, because Python's Unicode
`str.upper` and `str.isdigit` are applied (see the counterexample). -/
theorem resolve_station_code_idempotent (s : String)
    (hascii : ∀ c ∈ s.data, c.toNat < 128) :
    (specStationCodeShape s → resolve_station_code_action s = .returnCode (pyUpper s)) ∧
    (¬ specStationCodeShape s → resolve_station_code_action s = .search s) := by
  constructor
  · intro h
    unfold resolve_station_code_action
    rw [if_pos ((isStationCodeInput_iff s hascii).mpr h)]
  · intro h
    unfold resolve_station_code_action
    rw [if_neg (fun hb => h ((isStationCodeInput_iff s hascii).mp hb))]

/-- C7 witness: the theorem applied at the ASCII inputs `s01700` (a
well-formed code, returned uppercased with no search) and `Milano Centrale`
(searched). -/
theorem resolve_station_code_idempotent_witness :
    (∀ c ∈ ("s01700" : String).data, c.toNat < 128) ∧
    specStationCodeShape "s01700" ∧
    resolve_station_code_action "s01700" = .returnCode "S01700" ∧
    (∀ c ∈ ("Milano Centrale" : String).data, c.toNat < 128) ∧
    ¬ specStationCodeShape "Milano Centrale" ∧
    resolve_station_code_action "Milano Centrale" = .search "Milano Centrale" := by
  have hshape : specStationCodeShape "s01700" :=
    ⟨by decide, ⟨'s', ['0', '1', '7', '0', '0'], by decide, Or.inr rfl⟩, by decide⟩
  have hnot : ¬ specStationCodeShape "Milano Centrale" := by
    rintro ⟨hlen, -, -⟩
    exact absurd hlen (by decide)
  refine ⟨by decide, hshape, ?_, by decide, hnot, ?_⟩
  · rw [(resolve_station_code_idempotent "s01700" (by decide)).1 hshape]
    decide
  · exact (resolve_station_code_idempotent "Milano Centrale" (by decide)).2 hnot
